import Mathlib

/-!
Verification of the bulk-download engine of `链接批量下载.py`
(class `ClipboardImageDownloader`).

The Python class is shallowly embedded: strings model both text and byte
payloads, the on-disk filesystem is an association list from paths to file
contents, and network behaviour is an explicit environment of response
functions.  The per-task worker body (lines 263-308) becomes a state
transition `processTask`; a batch (`download_all`, lines 310-369) is the
URL filter stage followed by a left fold of `processTask` over the task
list, which is exactly the serialized execution of the worker pool.  Each
Python statement is treated as one atomic step; the race analysis of the
content-dedup region additionally splits that region into its two
statements (the membership test and the committing branch).

`hashlib.md5` cannot be carried over literally, so both digests are
environment parameters (`Env.urlHash`, `Env.contentHash`); concrete runs
instantiate them with the identity, modelling a collision-free digest.
Python `str` methods used by the source (`endswith`, `lower`, `split`,
percent decoding, `os.path` helpers) are re-implemented on `List Char`
so that every definition evaluates by kernel reduction.
-/

namespace ClipboardDownloader

/-- Python `set.add` on a set modelled as a list. -/
def setAdd (x : String) (s : List String) : List String :=
  if x ∈ s then s else x :: s

/-- Does the character list start with `pat`? (helper for substring search). -/
def startsWithChars : List Char → List Char → Bool
  | [], _ => true
  | _ :: _, [] => false
  | a :: as, b :: bs => a == b && startsWithChars as bs

/-- Does the character list contain `pat` as a contiguous run? -/
def containsChars (pat : List Char) : List Char → Bool
  | [] => startsWithChars pat []
  | b :: bs => startsWithChars pat (b :: bs) || containsChars pat bs

/-- Python `pat in s` (substring test). -/
def strContains (s pat : String) : Bool :=
  containsChars pat.data s.data

/-- Python `s.endswith(suffix)`. -/
def strEndsWith (s suffix : String) : Bool :=
  startsWithChars suffix.data.reverse s.data.reverse

/-- Python `s.lower()` (ASCII case folding, as used on URL paths and headers). -/
def strLower (s : String) : String :=
  String.mk (s.data.map Char.toLower)

/-- Python `s[:n]` on a payload (used for `response.content[:100]`). -/
def strTake (s : String) (n : Nat) : String :=
  String.mk (s.data.take n)

/-- Python `s.split(c)[0]`: the part of `s` before the first occurrence of `c`. -/
def takeUntilChar (c : Char) (s : String) : String :=
  String.mk (s.data.takeWhile (fun a => a ≠ c))

/-- Value of a hexadecimal digit, if any (helper for percent decoding). -/
def hexVal (c : Char) : Option Nat :=
  if '0' ≤ c ∧ c ≤ '9' then some (c.toNat - '0'.toNat)
  else if 'a' ≤ c ∧ c ≤ 'f' then some (c.toNat - 'a'.toNat + 10)
  else if 'A' ≤ c ∧ c ≤ 'F' then some (c.toNat - 'A'.toNat + 10)
  else none

/-- Percent decoding of `urllib.parse.unquote`, at character level. -/
def unquoteChars : List Char → List Char
  | [] => []
  | '%' :: a :: b :: rest =>
    match hexVal a, hexVal b with
    | some x, some y => Char.ofNat (16 * x + y) :: unquoteChars rest
    | _, _ => '%' :: unquoteChars (a :: b :: rest)
  | c :: rest => c :: unquoteChars rest

/-- Python `urllib.parse.unquote`. -/
def unquote (s : String) : String :=
  String.mk (unquoteChars s.data)

/-- Python `os.path.basename`: the part after the last path separator. -/
def basename (p : String) : String :=
  String.mk (p.data.foldl (fun acc c => if c = '/' then [] else acc ++ [c]) [])

/-- Index of the last `'.'` in a character list, if any. -/
def lastDotIdx : List Char → Option Nat
  | [] => none
  | c :: cs =>
    match lastDotIdx cs with
    | some i => some (i + 1)
    | none => if c = '.' then some 0 else none

/-- Python `os.path.splitext`: split a bare file name into stem and extension.
The extension starts at the last dot, provided some earlier character of the
name is not a dot (so names made only of leading dots have no extension). -/
def splitext (f : String) : String × String :=
  match lastDotIdx f.data with
  | none => (f, "")
  | some i =>
    if (f.data.take i).any (fun c => c ≠ '.') then
      (String.mk (f.data.take i), String.mk (f.data.drop i))
    else (f, "")

/-- Python `os.path.join` for the one-separator uses in the source. -/
def pathJoin (dir f : String) : String :=
  dir ++ "/" ++ f

/-- A decimal rendering of `n` left-padded with zeros to width `w`
(the `index:03d` field of the naming pattern). -/
def padZero (w n : Nat) : String :=
  let s := toString n
  if s.length < w then String.mk (List.replicate (w - s.length) '0') ++ s else s

/-- One placeholder or literal piece of the configured `rename_pattern`
format string; the placeholders are exactly those `get_filename_from_url`
passes to `str.format` (lines 176-182). -/
inductive PatTok where
  | lit (s : String)
  | idx (width : Nat)
  | filename
  | timestamp
  | date
  | clock
deriving Repr, DecidableEq

/-- Counters of `self.stats` (lines 47-53). -/
structure Stats where
  total : Nat
  success : Nat
  failed : Nat
  skipped : Nat
  duplicate : Nat
deriving Repr, DecidableEq

/-- The configuration record `self.config` (lines 22-35); fields not used by
the embedded operations (GUI strings etc.) are omitted. -/
structure Config where
  save_dir : String
  max_workers : Nat
  timeout : Nat
  rename_pattern : List PatTok
  auto_create_subdir : Bool
  deduplicate : Bool
  supported_extensions : List String
  min_file_size : Nat
  max_file_size : Nat
  retry_attempts : Nat
  retry_delay : Nat
deriving Repr

/-- A URL as seen through `urllib.parse.urlparse`: the raw string (hashed for
URL-level dedup) together with its parsed path component. -/
structure Url where
  raw : String
  path : String
deriving Repr, DecidableEq

/-- The ambient world of one batch run: wall-clock values, the `mimetypes`
guess, the two digests (modelled as function parameters), the HEAD probe of
the classifier, and the network outcome of `download_image` per task.
`fetch i raw` is the terminal result of the (retried) download of task `i`:
an error message, or the downloaded bytes together with whether
`calculate_file_hash` succeeded (it returns `None` on an I/O error). -/
structure Env where
  now : Nat
  date : String
  clock : String
  subdir_name : String
  guessExt : String → Option String
  urlHash : String → String
  contentHash : String → String
  probe : String → Except Unit String
  fetch : Nat → String → Except String (String × Bool)

/-- Render the configured naming pattern (`str.format` at lines 176-182). -/
def renderPattern (pat : List PatTok) (index : Nat) (filename : String) (env : Env) : String :=
  pat.foldl
    (fun acc t =>
      acc ++
        match t with
        | .lit s => s
        | .idx w => padZero w index
        | .filename => filename
        | .timestamp => toString env.now
        | .date => env.date
        | .clock => env.clock)
    ""

/-- The fixed image MIME list of `is_image_url` (lines 142-143). -/
def image_types : List String :=
  ["image/jpeg", "image/png", "image/gif", "image/bmp",
   "image/webp", "image/tiff", "image/svg+xml"]

/-- `is_image_url` (lines 124-153): extension match on the lowered URL path
accepts immediately; otherwise the HEAD probe result decides, and a probe
failure (the inner bare `except`) yields `False`.  The function is total:
the outer `except Exception` guarantees no exception escapes. -/
def is_image_url (cfg : Config) (url : Url) (probeRes : Except Unit String) : Bool :=
  let path := strLower url.path
  if cfg.supported_extensions.any (fun ext => strEndsWith path ext) then true
  else
    match probeRes with
    | .error _ => false
    | .ok hdr =>
      let content_type := strLower hdr
      image_types.any (fun t => strContains content_type t)

/-- `get_filename_from_url` (lines 155-194).  The `try` body never fails in
the embedding (the `str.format` KeyError path of a malformed pattern cannot
occur because patterns are token lists), so the outer fallback name of line
194 is unreachable and not modelled. -/
def get_filename_from_url (cfg : Config) (env : Env) (url : Url) (index : Nat) : String :=
  let path := unquote url.path
  if path ≠ "" then
    let filename := basename path
    if filename ≠ "" then
      let filename := takeUntilChar '#' (takeUntilChar '?' filename)
      let pr := splitext filename
      let filename :=
        if pr.2 = "" then pr.1 ++ ((env.guessExt url.path).getD ".jpg") else filename
      renderPattern cfg.rename_pattern index filename env
    else
      renderPattern cfg.rename_pattern index ("image_" ++ toString env.now ++ ".jpg") env
  else
    renderPattern cfg.rename_pattern index ("image_" ++ toString env.now ++ ".jpg") env

/-- The destination-path step of the enqueue loop (lines 337-346): join the
save directory with the generated file name, and if that path already exists
on disk, splice a timestamp before the extension. -/
def resolvePath (cfg : Config) (env : Env) (disk_paths : List String)
    (save_dir : String) (url : Url) (index : Nat) : String :=
  let filename := get_filename_from_url cfg env url index
  let save_path := pathJoin save_dir filename
  if save_path ∈ disk_paths then
    let pr := splitext filename
    pathJoin save_dir (pr.1 ++ "_" ++ toString env.now ++ pr.2)
  else save_path

/-- The whole enqueue loop `for i, url in enumerate(image_urls, 1)`
(lines 337-347): every task is `(url, save_path, index)`.  The disk is not
mutated by enqueuing, so every resolution checks the same path set. -/
def assign_paths (cfg : Config) (env : Env) (disk_paths : List String)
    (save_dir : String) : List Url → Nat → List (Url × String × Nat)
  | [], _ => []
  | u :: rest, i =>
    (u, resolvePath cfg env disk_paths save_dir u i, i) ::
      assign_paths cfg env disk_paths save_dir rest (i + 1)

/-- Is an `Except` result an error? -/
def isErr {ε α : Type} : Except ε α → Bool
  | .error _ => true
  | .ok _ => false

/-- `download_image` abstracted to its retry skeleton (lines 205-261):
`tryRes j` is the outcome of try number `j`, the second component counts the
tries actually performed.  The fuel argument is `retry_attempts - retry_count`,
so the guard `retry_count < retry_attempts` of line 257 is `fuel > 0`. -/
def download_image_tries (tryRes : Nat → Except String Unit) :
    Nat → Nat → Except String Unit × Nat
  | 0, rc => (tryRes rc, 1)
  | fuel + 1, rc =>
    match tryRes rc with
    | .ok u => (.ok u, 1)
    | .error _ =>
      let p := download_image_tries tryRes fuel (rc + 1)
      (p.1, p.2 + 1)

/-- `download_image(url, save_path)` with `retry_count = 0`, try-counting view. -/
def download_image_count (retry_attempts : Nat) (tryRes : Nat → Except String Unit) :
    Except String Unit × Nat :=
  download_image_tries tryRes retry_attempts 0

/-- An HTTP response as `download_image` observes it: status, the declared
`Content-Length` (`int(headers.get('Content-Length', 0))`, so an absent
header reads as `0`), the `Content-Type` header, and the body bytes. -/
structure HttpResp where
  status : Nat
  contentLength : Nat
  contentType : String
  body : String
deriving Repr, DecidableEq

/-- The filesystem: an association list from paths to file contents. -/
abbrev Disk := List (String × String)

/-- Python `os.remove(p)`. -/
def diskRemove (p : String) (d : Disk) : Disk :=
  d.filter (fun e => e.1 ≠ p)

/-- Writing a file with `open(p, 'wb')` replaces any previous content. -/
def diskWrite (p content : String) (d : Disk) : Disk :=
  (p, content) :: diskRemove p d

/-- One try of `download_image` (the `try` body, lines 207-254): status
check, declared-length bounds, content-type / first-100-bytes sniff, write,
then the on-disk size re-check and the decode check, each of which deletes
the just-written file before raising.  `decodable` is the `PIL.Image`
oracle. -/
def download_try (cfg : Config) (decodable : String → Bool)
    (resp : Except String HttpResp) (save_path : String) (disk : Disk) :
    Except String Unit × Disk :=
  match resp with
  | .error e => (.error e, disk)
  | .ok r =>
    if 400 ≤ r.status then (.error "http status error", disk)
    else if cfg.max_file_size < r.contentLength then (.error "file too large", disk)
    else if 0 < r.contentLength ∧ r.contentLength < cfg.min_file_size then
      (.error "file too small", disk)
    else if ¬ strContains (strLower r.contentType) "image/" = true ∧
            ¬ decodable (strTake r.body 100) = true then
      (.error "content is not a valid image", disk)
    else
      let disk1 := diskWrite save_path r.body disk
      if r.body.length < cfg.min_file_size then
        (.error "downloaded file too small", diskRemove save_path disk1)
      else if ¬ decodable r.body = true then
        (.error "downloaded file is not a valid image", diskRemove save_path disk1)
      else (.ok (), disk1)

/-- `download_image` with its retry recursion over filesystem state
(lines 205-261): `resps j` is the HTTP outcome of try `j`; on an exception
the function sleeps and recurses with `retry_count + 1` while fuel remains,
otherwise the last error surfaces. -/
def download_image_go (cfg : Config) (decodable : String → Bool)
    (resps : Nat → Except String HttpResp) (save_path : String) :
    Nat → Nat → Disk → Except String Unit × Disk
  | 0, rc, disk => download_try cfg decodable (resps rc) save_path disk
  | fuel + 1, rc, disk =>
    match download_try cfg decodable (resps rc) save_path disk with
    | (.ok u, d) => (.ok u, d)
    | (.error _, d) => download_image_go cfg decodable resps save_path fuel (rc + 1) d

/-- The mutable instance state of `ClipboardImageDownloader` that the batch
operations touch (lines 44-57) plus the filesystem. -/
structure DownloaderState where
  stats : Stats
  downloaded_files : List String
  failed_urls : List (String × String)
  url_hash_set : List String
  file_hash_set : List String
  disk : Disk
deriving Repr, DecidableEq

/-- The worker body for one dequeued task (lines 272-302): run the download;
on success write is already on disk, compute the content hash, and either
hit the content-dedup set (delete the file, count duplicate and skipped) or
record the file; on an exception record the failure. -/
def processTask (cfg : Config) (env : Env) (st : DownloaderState)
    (url : Url) (save_path : String) (index : Nat) : DownloaderState :=
  match env.fetch index url.raw with
  | .error e =>
    { st with
      failed_urls := st.failed_urls ++ [(url.raw, e)],
      stats := { st.stats with failed := st.stats.failed + 1 } }
  | .ok pr =>
    let content := pr.1
    let hashOk := pr.2
    let st1 := { st with disk := diskWrite save_path content st.disk }
    if cfg.deduplicate && hashOk then
      let h := env.contentHash content
      if h ∈ st1.file_hash_set then
        { st1 with
          disk := diskRemove save_path st1.disk,
          stats := { st1.stats with
                     duplicate := st1.stats.duplicate + 1,
                     skipped := st1.stats.skipped + 1 } }
      else
        { st1 with
          file_hash_set := setAdd h st1.file_hash_set,
          downloaded_files := st1.downloaded_files ++ [save_path],
          stats := { st1.stats with success := st1.stats.success + 1 } }
    else
      { st1 with
        downloaded_files := st1.downloaded_files ++ [save_path],
        stats := { st1.stats with success := st1.stats.success + 1 } }

/-- The URL filter stage of `download_all` (lines 317-325): keep the URLs the
classifier accepts, dropping (when dedup is enabled) those whose URL digest
was already seen, and record every kept digest in `url_hash_set`. -/
def filter_image_urls (cfg : Config) (env : Env) :
    List Url → DownloaderState → DownloaderState × List Url
  | [], st => (st, [])
  | u :: rest, st =>
    if is_image_url cfg u (env.probe u.raw) then
      let h := env.urlHash u.raw
      if cfg.deduplicate = false ∨ h ∉ st.url_hash_set then
        let st' := { st with url_hash_set := setAdd h st.url_hash_set }
        let pr := filter_image_urls cfg env rest st'
        (pr.1, u :: pr.2)
      else filter_image_urls cfg env rest st
    else filter_image_urls cfg env rest st

/-- The statistics reset at the top of `download_all` (lines 312-315): the
two dedup sets are deliberately left untouched. -/
def resetState (st : DownloaderState) : DownloaderState :=
  { st with stats := ⟨0, 0, 0, 0, 0⟩, downloaded_files := [], failed_urls := [] }

/-- `get_save_directory` (lines 88-95). -/
def get_save_directory (cfg : Config) (env : Env) : String :=
  if cfg.auto_create_subdir then pathJoin cfg.save_dir env.subdir_name else cfg.save_dir

/-- The serialized draining of the task queue by the worker pool. -/
def runTasks (cfg : Config) (env : Env) (tasks : List (Url × String × Nat))
    (st : DownloaderState) : DownloaderState :=
  tasks.foldl (fun s t => processTask cfg env s t.1 t.2.1 t.2.2) st

/-- `download_all` (lines 310-369): reset, filter, early return on an empty
image list, path assignment, `stats['total']`, then the queue drain. -/
def download_all (cfg : Config) (env : Env) (st : DownloaderState) (urls : List Url) :
    Bool × DownloaderState :=
  let pr := filter_image_urls cfg env urls (resetState st)
  if pr.2.isEmpty then (false, pr.1)
  else
    let tasks := assign_paths cfg env (pr.1.disk.map Prod.fst)
      (get_save_directory cfg env) pr.2 1
    (true,
      runTasks cfg env tasks
        { pr.1 with stats := { pr.1.stats with total := pr.2.length } })

/-- Shared state of the content-dedup region (lines 282-292) for a race
analysis of two workers: the content-digest set, the counters that region
touches, and each worker's pending membership-test result. -/
structure RaceState where
  file_hash_set : List String
  success : Nat
  duplicate : Nat
  skipped : Nat
  seenA : Option Bool
  seenB : Option Bool
deriving Repr, DecidableEq

/-- Atomic steps of the dedup region at statement granularity: the membership
test `file_hash in self.file_hash_set` (line 283) and the branch it selects
(lines 284-287 or 290-292).  Each worker performs its check and then its
commit; the schedule decides the interleaving. -/
inductive RaceOp where
  | checkA
  | commitA
  | checkB
  | commitB
deriving Repr, DecidableEq

/-- One atomic step of a worker in the dedup region, both workers holding the
same content digest `h`. -/
def raceStep (h : String) (st : RaceState) : RaceOp → RaceState
  | .checkA => { st with seenA := some (decide (h ∈ st.file_hash_set)) }
  | .checkB => { st with seenB := some (decide (h ∈ st.file_hash_set)) }
  | .commitA =>
    match st.seenA with
    | some true => { st with duplicate := st.duplicate + 1, skipped := st.skipped + 1 }
    | some false =>
      { st with file_hash_set := setAdd h st.file_hash_set, success := st.success + 1 }
    | none => st
  | .commitB =>
    match st.seenB with
    | some true => { st with duplicate := st.duplicate + 1, skipped := st.skipped + 1 }
    | some false =>
      { st with file_hash_set := setAdd h st.file_hash_set, success := st.success + 1 }
    | none => st

/-- Execute a schedule of dedup-region steps. -/
def raceRun (h : String) (ops : List RaceOp) (st : RaceState) : RaceState :=
  ops.foldl (raceStep h) st

/-- Empty shared state before the two workers reach the dedup region. -/
def raceInit : RaceState :=
  ⟨[], 0, 0, 0, none, none⟩

/-- A fresh downloader instance: zero counters, empty collections and dedup
sets (lines 44-57), over an empty filesystem. -/
def initState : DownloaderState :=
  ⟨⟨0, 0, 0, 0, 0⟩, [], [], [], [], []⟩

/-- The default `rename_pattern` of the source, the format string
`index` padded to three digits, then an underscore, then `filename`. -/
def defaultPattern : List PatTok :=
  [.idx 3, .lit "_", .filename]

/-- The `__init__` defaults of `self.config` (lines 22-35), with one worker
as in the scenario of the spec. -/
def cfgDedup : Config :=
  { save_dir := "save"
    max_workers := 1
    timeout := 30
    rename_pattern := defaultPattern
    auto_create_subdir := true
    deduplicate := true
    supported_extensions := [".jpg", ".jpeg", ".png", ".gif", ".bmp", ".webp", ".tiff"]
    min_file_size := 1024
    max_file_size := 50 * 1024 * 1024
    retry_attempts := 3
    retry_delay := 2 }

/-- The same configuration with dedup disabled. -/
def cfgNoDedup : Config :=
  { cfgDedup with deduplicate := false }

/-- The scenario URL `a.jpg`. -/
def urlA : Url :=
  ⟨"http://example.com/a.jpg", "/a.jpg"⟩

/-- The scenario URL `b.jpg`. -/
def urlB : Url :=
  ⟨"http://example.com/b.jpg", "/b.jpg"⟩

/-- A URL whose path carries no image extension (classifier must probe). -/
def urlNoExt : Url :=
  ⟨"http://example.com/page", "/page"⟩

/-- Two distinct URLs sharing the base name `x.jpg` on different hosts. -/
def urlX1 : Url :=
  ⟨"http://a.example/x.jpg", "/x.jpg"⟩

/-- A second URL with base name `x.jpg`. -/
def urlX2 : Url :=
  ⟨"http://b.example/x.jpg", "/x.jpg"⟩

/-- Environment of the dedup scenario: every fetch succeeds and returns the
same bytes, so `a.jpg` and `b.jpg` carry identical content; digests are the
identity (a collision-free digest); the probe never answers. -/
def envSame : Env :=
  { now := 1700000000
    date := "20231114"
    clock := "221320"
    subdir_name := "2023-11-14"
    guessExt := fun _ => none
    urlHash := fun s => s
    contentHash := fun s => s
    probe := fun _ => .error ()
    fetch := fun _ _ => .ok ("IMGDATA", true) }

/-- Environment in which every download ultimately fails with a connection
error (for the retry-exhaustion claim). -/
def envFail : Env :=
  { envSame with fetch := fun _ _ => .error "connection error" }

/-! ### Helper lemmas -/

theorem lookup_diskRemove (p : String) (d : Disk) :
    List.lookup p (diskRemove p d) = none := by
  induction d with
  | nil => rfl
  | cons a d ih =>
    unfold diskRemove at *
    by_cases h : a.1 = p
    · simpa [List.filter_cons, h] using ih
    · simp only [List.filter_cons, decide_eq_true_eq]
      rw [if_pos h]
      simp only [List.lookup]
      have : (p == a.1) = false := by
        simp [beq_eq_false_iff_ne]
        exact fun he => h he.symm
      rw [this]
      exact ih

theorem setAdd_subset (x : String) (s : List String) : s ⊆ setAdd x s := by
  unfold setAdd
  split
  · exact fun a ha => ha
  · exact fun a ha => List.mem_cons_of_mem x ha

theorem processTask_stats (cfg : Config) (env : Env) (st : DownloaderState)
    (u : Url) (sp : String) (i : Nat) :
    ((processTask cfg env st u sp i).stats.success
        + (processTask cfg env st u sp i).stats.failed
        + (processTask cfg env st u sp i).stats.skipped
      = st.stats.success + st.stats.failed + st.stats.skipped + 1) ∧
    ((processTask cfg env st u sp i).stats.duplicate + st.stats.skipped
      = st.stats.duplicate + (processTask cfg env st u sp i).stats.skipped) ∧
    (processTask cfg env st u sp i).stats.total = st.stats.total := by
  cases hf : env.fetch i u.raw with
  | error e => simp [processTask, hf]; omega
  | ok pr =>
    simp only [processTask, hf]
    by_cases hb : (cfg.deduplicate && pr.2) = true
    · rw [if_pos hb]
      by_cases hm : env.contentHash pr.1 ∈ st.file_hash_set
      · rw [if_pos hm]; simp; omega
      · rw [if_neg hm]; simp; omega
    · rw [if_neg hb]; simp; omega

theorem processTask_sets (cfg : Config) (env : Env) (st : DownloaderState)
    (u : Url) (sp : String) (i : Nat) :
    (processTask cfg env st u sp i).url_hash_set = st.url_hash_set ∧
    st.file_hash_set ⊆ (processTask cfg env st u sp i).file_hash_set := by
  cases hf : env.fetch i u.raw with
  | error e => simp [processTask, hf]
  | ok pr =>
    simp only [processTask, hf]
    by_cases hb : (cfg.deduplicate && pr.2) = true
    · rw [if_pos hb]
      by_cases hm : env.contentHash pr.1 ∈ st.file_hash_set
      · rw [if_pos hm]; exact ⟨rfl, fun a ha => ha⟩
      · rw [if_neg hm]; exact ⟨rfl, setAdd_subset _ _⟩
    · rw [if_neg hb]; exact ⟨rfl, fun a ha => ha⟩

theorem runTasks_stats (cfg : Config) (env : Env) :
    ∀ (tasks : List (Url × String × Nat)) (st : DownloaderState),
      ((runTasks cfg env tasks st).stats.success
          + (runTasks cfg env tasks st).stats.failed
          + (runTasks cfg env tasks st).stats.skipped
        = st.stats.success + st.stats.failed + st.stats.skipped + tasks.length) ∧
      ((runTasks cfg env tasks st).stats.duplicate + st.stats.skipped
        = st.stats.duplicate + (runTasks cfg env tasks st).stats.skipped) ∧
      (runTasks cfg env tasks st).stats.total = st.stats.total := by
  intro tasks
  induction tasks with
  | nil => intro st; simp [runTasks]
  | cons t ts ih =>
    intro st
    have hstep := processTask_stats cfg env st t.1 t.2.1 t.2.2
    have hrest := ih (processTask cfg env st t.1 t.2.1 t.2.2)
    have hrw : runTasks cfg env (t :: ts) st
        = runTasks cfg env ts (processTask cfg env st t.1 t.2.1 t.2.2) := rfl
    rw [hrw]
    obtain ⟨r1, r2, r3⟩ := hrest
    obtain ⟨s1, s2, s3⟩ := hstep
    refine ⟨by simp only [List.length_cons]; omega, by omega, by omega⟩

theorem runTasks_sets (cfg : Config) (env : Env) :
    ∀ (tasks : List (Url × String × Nat)) (st : DownloaderState),
      (runTasks cfg env tasks st).url_hash_set = st.url_hash_set ∧
      st.file_hash_set ⊆ (runTasks cfg env tasks st).file_hash_set := by
  intro tasks
  induction tasks with
  | nil => intro st; exact ⟨rfl, fun a ha => ha⟩
  | cons t ts ih =>
    intro st
    have hstep := processTask_sets cfg env st t.1 t.2.1 t.2.2
    have hrest := ih (processTask cfg env st t.1 t.2.1 t.2.2)
    have hrw : runTasks cfg env (t :: ts) st
        = runTasks cfg env ts (processTask cfg env st t.1 t.2.1 t.2.2) := rfl
    rw [hrw]
    exact ⟨hrest.1.trans hstep.1, hstep.2.trans hrest.2⟩

theorem filter_image_urls_state (cfg : Config) (env : Env) :
    ∀ (urls : List Url) (st : DownloaderState),
      (filter_image_urls cfg env urls st).1.stats = st.stats ∧
      (filter_image_urls cfg env urls st).1.downloaded_files = st.downloaded_files ∧
      (filter_image_urls cfg env urls st).1.failed_urls = st.failed_urls ∧
      (filter_image_urls cfg env urls st).1.file_hash_set = st.file_hash_set ∧
      (filter_image_urls cfg env urls st).1.disk = st.disk ∧
      st.url_hash_set ⊆ (filter_image_urls cfg env urls st).1.url_hash_set := by
  intro urls
  induction urls with
  | nil => intro st; exact ⟨rfl, rfl, rfl, rfl, rfl, fun a ha => ha⟩
  | cons u rest ih =>
    intro st
    unfold filter_image_urls
    by_cases hc : is_image_url cfg u (env.probe u.raw) = true
    · rw [if_pos hc]
      by_cases hd : cfg.deduplicate = false ∨ env.urlHash u.raw ∉ st.url_hash_set
      · rw [if_pos hd]
        have h := ih { st with url_hash_set := setAdd (env.urlHash u.raw) st.url_hash_set }
        exact ⟨h.1, h.2.1, h.2.2.1, h.2.2.2.1, h.2.2.2.2.1,
          (setAdd_subset _ _).trans h.2.2.2.2.2⟩
      · rw [if_neg hd]; exact ih st
    · rw [if_neg hc]; exact ih st

theorem assign_paths_length (cfg : Config) (env : Env) (dp : List String) (sd : String) :
    ∀ (us : List Url) (i : Nat), (assign_paths cfg env dp sd us i).length = us.length := by
  intro us
  induction us with
  | nil => intro i; rfl
  | cons u rest ih => intro i; simp [assign_paths, ih]

theorem download_image_tries_le (tryRes : Nat → Except String Unit) :
    ∀ (fuel rc : Nat), (download_image_tries tryRes fuel rc).2 ≤ fuel + 1 := by
  intro fuel
  induction fuel with
  | zero => intro rc; simp [download_image_tries]
  | succ n ih =>
    intro rc
    unfold download_image_tries
    cases h : tryRes rc with
    | ok u => simp
    | error e =>
      simp only
      have := ih (rc + 1)
      omega

theorem download_image_tries_last (tryRes : Nat → Except String Unit) :
    ∀ (fuel rc : Nat), (∀ j, rc ≤ j → j ≤ rc + fuel → isErr (tryRes j) = true) →
      (download_image_tries tryRes fuel rc).1 = tryRes (rc + fuel) := by
  intro fuel
  induction fuel with
  | zero => intro rc h; simp [download_image_tries]
  | succ n ih =>
    intro rc h
    have hrc : isErr (tryRes rc) = true := h rc le_rfl (by omega)
    unfold download_image_tries
    cases he : tryRes rc with
    | ok u => rw [he] at hrc; simp [isErr] at hrc
    | error e =>
      simp only
      have hrec := ih (rc + 1) (fun j h1 h2 => h j (by omega) (by omega))
      rw [hrec]
      congr 1
      omega

theorem splitext_append (f : String) : (splitext f).1 ++ (splitext f).2 = f := by
  unfold splitext
  cases h : lastDotIdx f.data with
  | none => simp
  | some i =>
    dsimp only
    by_cases ha : (f.data.take i).any (fun c => c ≠ '.') = true
    · rw [if_pos ha]
      show String.mk (f.data.take i ++ f.data.drop i) = f
      rw [List.take_append_drop]
    · rw [if_neg ha]; simp

theorem pathJoin_length (dir f : String) :
    (pathJoin dir f).length = dir.length + 1 + f.length := by
  unfold pathJoin
  rw [String.length_append, String.length_append]
  rfl


theorem download_all_stats_core (cfg : Config) (env : Env) (st : DownloaderState)
    (urls : List Url) :
    (download_all cfg env st urls).2.stats.total
      = (filter_image_urls cfg env urls (resetState st)).2.length ∧
    (download_all cfg env st urls).2.stats.success
      + (download_all cfg env st urls).2.stats.failed
      + (download_all cfg env st urls).2.stats.skipped
      = (filter_image_urls cfg env urls (resetState st)).2.length ∧
    (download_all cfg env st urls).2.stats.duplicate
      = (download_all cfg env st urls).2.stats.skipped := by
  have hfil := filter_image_urls_state cfg env urls (resetState st)
  have h0 : (filter_image_urls cfg env urls (resetState st)).1.stats = ⟨0, 0, 0, 0, 0⟩ :=
    hfil.1
  unfold download_all
  dsimp only
  by_cases he : (filter_image_urls cfg env urls (resetState st)).2.isEmpty = true
  · rw [if_pos he]
    have hnil : (filter_image_urls cfg env urls (resetState st)).2 = [] := by
      rwa [List.isEmpty_iff] at he
    rw [h0, hnil]
    exact ⟨rfl, rfl, rfl⟩
  · rw [if_neg he]
    dsimp only
    set tasks := assign_paths cfg env
      ((filter_image_urls cfg env urls (resetState st)).1.disk.map Prod.fst)
      (get_save_directory cfg env) (filter_image_urls cfg env urls (resetState st)).2 1
      with htasks
    set st2 : DownloaderState :=
      { (filter_image_urls cfg env urls (resetState st)).1 with
        stats := { (filter_image_urls cfg env urls (resetState st)).1.stats with
                   total := (filter_image_urls cfg env urls (resetState st)).2.length } }
      with hst2
    have hrun := runTasks_stats cfg env tasks st2
    have hlen : tasks.length
        = (filter_image_urls cfg env urls (resetState st)).2.length := by
      rw [htasks]; exact assign_paths_length cfg env _ _ _ 1
    have e1 : st2.stats.success = 0 := by rw [hst2]; simp [h0]
    have e2 : st2.stats.failed = 0 := by rw [hst2]; simp [h0]
    have e3 : st2.stats.skipped = 0 := by rw [hst2]; simp [h0]
    have e4 : st2.stats.duplicate = 0 := by rw [hst2]; simp [h0]
    have e5 : st2.stats.total
        = (filter_image_urls cfg env urls (resetState st)).2.length := by
      rw [hst2]
    obtain ⟨a1, a2, a3⟩ := hrun
    refine ⟨by omega, by omega, by omega⟩


theorem download_try_invalid (cfg : Config) (decodable : String → Bool) (r : HttpResp)
    (sp : String) (disk : Disk)
    (h1 : r.status < 400) (h2 : r.contentLength ≤ cfg.max_file_size)
    (h3 : r.contentLength = 0 ∨ cfg.min_file_size ≤ r.contentLength)
    (h4 : strContains (strLower r.contentType) "image/" = true ∨
      decodable (strTake r.body 100) = true)
    (h5 : r.body.length < cfg.min_file_size ∨ decodable r.body = false) :
    isErr (download_try cfg decodable (.ok r) sp disk).1 = true ∧
    List.lookup sp (download_try cfg decodable (.ok r) sp disk).2 = none := by
  simp only [download_try]
  rw [if_neg (by omega : ¬ 400 ≤ r.status)]
  rw [if_neg (by omega : ¬ cfg.max_file_size < r.contentLength)]
  rw [if_neg (by omega : ¬ (0 < r.contentLength ∧ r.contentLength < cfg.min_file_size))]
  rw [if_neg (by tauto : ¬ (¬ strContains (strLower r.contentType) "image/" = true ∧
    ¬ decodable (strTake r.body 100) = true))]
  by_cases hsz : r.body.length < cfg.min_file_size
  · rw [if_pos hsz]
    exact ⟨rfl, lookup_diskRemove sp _⟩
  · rw [if_neg hsz]
    have hdec : decodable r.body = false := by
      rcases h5 with h | h
      · exact absurd h hsz
      · exact h
    rw [if_pos (by simp [hdec] : ¬ decodable r.body = true)]
    exact ⟨rfl, lookup_diskRemove sp _⟩

theorem download_try_html (cfg : Config) (decodable : String → Bool) (ct body sp : String)
    (d : Disk) (hb1 : decodable (strTake body 100) = false) (hb2 : decodable body = false)
    (hd : List.lookup sp d = none) :
    isErr (download_try cfg decodable (.ok ⟨200, 0, ct, body⟩) sp d).1 = true ∧
    List.lookup sp (download_try cfg decodable (.ok ⟨200, 0, ct, body⟩) sp d).2 = none := by
  simp only [download_try]
  rw [if_neg (by omega : ¬ (400 : Nat) ≤ 200)]
  rw [if_neg (by omega : ¬ cfg.max_file_size < 0)]
  rw [if_neg (by omega : ¬ ((0 : Nat) < 0 ∧ (0 : Nat) < cfg.min_file_size))]
  by_cases hct : strContains (strLower ct) "image/" = true
  · rw [if_neg (by tauto)]
    by_cases hsz : body.length < cfg.min_file_size
    · rw [if_pos hsz]
      exact ⟨rfl, lookup_diskRemove sp _⟩
    · rw [if_neg hsz]
      rw [if_pos (by simp [hb2] : ¬ decodable body = true)]
      exact ⟨rfl, lookup_diskRemove sp _⟩
  · rw [if_pos ⟨hct, by simp [hb1]⟩]
    exact ⟨rfl, hd⟩

theorem download_go_html (cfg : Config) (decodable : String → Bool) (ct body sp : String)
    (hb1 : decodable (strTake body 100) = false) (hb2 : decodable body = false) :
    ∀ (fuel rc : Nat) (d : Disk), List.lookup sp d = none →
      isErr (download_image_go cfg decodable
        (fun _ => .ok ⟨200, 0, ct, body⟩) sp fuel rc d).1 = true ∧
      List.lookup sp (download_image_go cfg decodable
        (fun _ => .ok ⟨200, 0, ct, body⟩) sp fuel rc d).2 = none := by
  intro fuel
  induction fuel with
  | zero =>
    intro rc d hd
    exact download_try_html cfg decodable ct body sp d hb1 hb2 hd
  | succ n ih =>
    intro rc d hd
    have htry := download_try_html cfg decodable ct body sp d hb1 hb2 hd
    unfold download_image_go
    cases hres : download_try cfg decodable (.ok ⟨200, 0, ct, body⟩) sp d with
    | mk r1 d1 =>
      cases r1 with
      | ok u =>
        rw [hres] at htry
        simp [isErr] at htry
      | error e =>
        rw [hres] at htry
        exact ih (rc + 1) d1 htry.2


/-! ### Claims -/

/-- C1: for every batch run of `download_all`, after the join the stats
satisfy `total = success + failed + skipped` and `duplicate ≤ skipped`;
every enqueued task contributes exactly one terminal outcome, which is what
makes the sum identity hold. -/
theorem c1_batch_stats_invariant (cfg : Config) (env : Env) (st : DownloaderState)
    (urls : List Url) :
    (download_all cfg env st urls).2.stats.total
      = (download_all cfg env st urls).2.stats.success
        + (download_all cfg env st urls).2.stats.failed
        + (download_all cfg env st urls).2.stats.skipped ∧
    (download_all cfg env st urls).2.stats.duplicate
      ≤ (download_all cfg env st urls).2.stats.skipped := by
  have h := download_all_stats_core cfg env st urls
  exact ⟨by omega, by omega⟩

/-- C2 counterexample: on the batch `[a.jpg, b.jpg, a.jpg]` with all contents
identical, dedup enabled and one worker, `download_all` yields stats
`total = 2, success = 1, failed = 0, skipped = 1, duplicate = 1`; in
particular `total ≠ 3`, contradicting the claimed `total = 3`. -/
theorem c2_dedup_scenario_counterexample :
    (download_all cfgDedup envSame initState [urlA, urlB, urlA]).2.stats
      = ⟨2, 1, 0, 1, 1⟩ ∧
    ¬ (download_all cfgDedup envSame initState [urlA, urlB, urlA]).2.stats.total = 3 := by
  decide

/-- C2 amended: with dedup enabled the third URL is dropped by URL-level
dedup before enqueue, so the batch yields
`{total: 2, success: 1, duplicate: 1, skipped: 1, failed: 0}`; with dedup
disabled it yields `{total: 3, success: 3, failed: 0}`. -/
theorem c2_dedup_scenario_amended :
    (download_all cfgDedup envSame initState [urlA, urlB, urlA]).2.stats
      = { total := 2, success := 1, failed := 0, skipped := 1, duplicate := 1 } ∧
    (download_all cfgNoDedup envSame initState [urlA, urlB, urlA]).2.stats
      = { total := 3, success := 3, failed := 0, skipped := 0, duplicate := 0 } := by
  decide

/-- C3: `download_image` performs at most `retry_attempts + 1` tries; when
every try raises, the exception of the last try is the surfaced result, and
the worker records that exception as the task's terminal failure. -/
theorem c3_retry_bound_and_last_error (ra : Nat) (tryRes : Nat → Except String Unit)
    (cfg : Config) (env : Env) (st : DownloaderState) (u : Url) (sp : String)
    (i : Nat) (e : String)
    (hall : ∀ j, j < ra + 1 → isErr (tryRes j) = true)
    (hf : env.fetch i u.raw = .error e) :
    (download_image_count ra tryRes).2 ≤ ra + 1 ∧
    (download_image_count ra tryRes).1 = tryRes ra ∧
    (processTask cfg env st u sp i).stats.failed = st.stats.failed + 1 ∧
    (processTask cfg env st u sp i).failed_urls = st.failed_urls ++ [(u.raw, e)] := by
  refine ⟨download_image_tries_le tryRes ra 0, ?_, ?_, ?_⟩
  · have h := download_image_tries_last tryRes ra 0 (fun j h1 h2 => hall j (by omega))
    simpa [download_image_count] using h
  · simp [processTask, hf]
  · simp [processTask, hf]

/-- C3 witness: with `retry_attempts = 3` and every try failing, four tries
are performed, the error of try `3` surfaces, and the worker records it. -/
theorem c3_retry_witness :
    (download_image_count 3 (fun j => Except.error (toString j))).2 ≤ 3 + 1 ∧
    (download_image_count 3 (fun j => Except.error (toString j))).1 = Except.error "3" ∧
    (processTask cfgDedup envFail initState urlA "save/a.jpg" 1).stats.failed = 1 ∧
    (processTask cfgDedup envFail initState urlA "save/a.jpg" 1).failed_urls
      = [(urlA.raw, "connection error")] :=
  c3_retry_bound_and_last_error 3 (fun j => Except.error (toString j)) cfgDedup envFail
    initState urlA "save/a.jpg" 1 "connection error" (by decide) rfl

/-- C4: on a content-digest hit with dedup enabled, the worker deletes the
just-written file, counts the task as duplicate and skipped, leaves the
success counter, the saved-paths list and the digest set unchanged. -/
theorem c4_content_dup_hit (cfg : Config) (env : Env) (st : DownloaderState)
    (u : Url) (sp : String) (i : Nat) (content : String)
    (hd : cfg.deduplicate = true)
    (hf : env.fetch i u.raw = .ok (content, true))
    (hm : env.contentHash content ∈ st.file_hash_set) :
    (processTask cfg env st u sp i).stats.duplicate = st.stats.duplicate + 1 ∧
    (processTask cfg env st u sp i).stats.skipped = st.stats.skipped + 1 ∧
    (processTask cfg env st u sp i).stats.success = st.stats.success ∧
    (processTask cfg env st u sp i).stats.failed = st.stats.failed ∧
    (processTask cfg env st u sp i).downloaded_files = st.downloaded_files ∧
    (processTask cfg env st u sp i).file_hash_set = st.file_hash_set ∧
    List.lookup sp (processTask cfg env st u sp i).disk = none := by
  simp only [processTask, hf]
  rw [if_pos (by simp [hd] : (cfg.deduplicate && (content, true).2) = true)]
  rw [if_pos hm]
  exact ⟨rfl, rfl, rfl, rfl, rfl, rfl, lookup_diskRemove sp _⟩

/-- C4 witness: a content hit on a fresh state whose digest set already
holds the digest of the downloaded bytes. -/
theorem c4_content_dup_hit_witness :
    (processTask cfgDedup envSame { initState with file_hash_set := ["IMGDATA"] }
      urlA "save/p.jpg" 1).stats.duplicate = 1 ∧
    (processTask cfgDedup envSame { initState with file_hash_set := ["IMGDATA"] }
      urlA "save/p.jpg" 1).stats.skipped = 1 ∧
    (processTask cfgDedup envSame { initState with file_hash_set := ["IMGDATA"] }
      urlA "save/p.jpg" 1).stats.success = 0 ∧
    (processTask cfgDedup envSame { initState with file_hash_set := ["IMGDATA"] }
      urlA "save/p.jpg" 1).stats.failed = 0 ∧
    (processTask cfgDedup envSame { initState with file_hash_set := ["IMGDATA"] }
      urlA "save/p.jpg" 1).downloaded_files = [] ∧
    (processTask cfgDedup envSame { initState with file_hash_set := ["IMGDATA"] }
      urlA "save/p.jpg" 1).file_hash_set = ["IMGDATA"] ∧
    List.lookup "save/p.jpg" (processTask cfgDedup envSame
      { initState with file_hash_set := ["IMGDATA"] } urlA "save/p.jpg" 1).disk = none :=
  c4_content_dup_hit cfgDedup envSame { initState with file_hash_set := ["IMGDATA"] }
    urlA "save/p.jpg" 1 "IMGDATA" rfl rfl (by decide)

/-- C5: whenever a try of `download_image` wrote the body to the destination
(the pre-write checks passed), an on-disk size below `min_file_size` or an
undecodable payload makes that try delete the written file and raise a
validation error; moreover a page whose bytes never decode as an image (an
HTML error page at a `.jpg`-looking URL) ends, after all retries, as a
failure with the destination absent from disk. -/
theorem c5_post_write_validation (cfg : Config) (decodable : String → Bool)
    (r : HttpResp) (sp ct body : String) (disk disk0 : Disk) (fuel rc : Nat)
    (h1 : r.status < 400) (h2 : r.contentLength ≤ cfg.max_file_size)
    (h3 : r.contentLength = 0 ∨ cfg.min_file_size ≤ r.contentLength)
    (h4 : strContains (strLower r.contentType) "image/" = true ∨
      decodable (strTake r.body 100) = true)
    (h5 : r.body.length < cfg.min_file_size ∨ decodable r.body = false)
    (hb1 : decodable (strTake body 100) = false) (hb2 : decodable body = false)
    (hb0 : List.lookup sp disk0 = none) :
    isErr (download_try cfg decodable (.ok r) sp disk).1 = true ∧
    List.lookup sp (download_try cfg decodable (.ok r) sp disk).2 = none ∧
    isErr (download_image_go cfg decodable
      (fun _ => .ok ⟨200, 0, ct, body⟩) sp fuel rc disk0).1 = true ∧
    List.lookup sp (download_image_go cfg decodable
      (fun _ => .ok ⟨200, 0, ct, body⟩) sp fuel rc disk0).2 = none := by
  have hA := download_try_invalid cfg decodable r sp disk h1 h2 h3 h4 h5
  have hB := download_go_html cfg decodable ct body sp hb1 hb2 fuel rc disk0 hb0
  exact ⟨hA.1, hA.2, hB.1, hB.2⟩

/-- C5 witness: a lying server sends a short non-image payload with an
image content type (post-write checks delete it), and an HTML error page is
retried to a terminal failure with nothing left on disk. -/
theorem c5_post_write_validation_witness :
    isErr (download_try cfgDedup (fun s => s == "IMGDATA")
      (.ok ⟨200, 0, "image/jpeg", "short"⟩) "save/x.jpg" [("other", "y")]).1 = true ∧
    List.lookup "save/x.jpg" (download_try cfgDedup (fun s => s == "IMGDATA")
      (.ok ⟨200, 0, "image/jpeg", "short"⟩) "save/x.jpg" [("other", "y")]).2 = none ∧
    isErr (download_image_go cfgDedup (fun s => s == "IMGDATA")
      (fun _ => .ok ⟨200, 0, "text/html", "<html>not found</html>"⟩)
      "save/x.jpg" 3 0 []).1 = true ∧
    List.lookup "save/x.jpg" (download_image_go cfgDedup (fun s => s == "IMGDATA")
      (fun _ => .ok ⟨200, 0, "text/html", "<html>not found</html>"⟩)
      "save/x.jpg" 3 0 []).2 = none :=
  c5_post_write_validation cfgDedup (fun s => s == "IMGDATA")
    ⟨200, 0, "image/jpeg", "short"⟩ "save/x.jpg" "text/html" "<html>not found</html>"
    [("other", "y")] [] 3 0 (by decide) (by decide) (by decide) (by decide) (by decide)
    (by decide) (by decide) rfl

/-- C6 counterexample: with the naming pattern reduced to the bare
`filename` placeholder, two distinct tasks of one batch (different hosts,
same base name, empty disk) resolve to the same destination path, so the
collision-avoidance step does not produce distinct paths for every task. -/
theorem c6_collision_counterexample :
    ((assign_paths { cfgNoDedup with rename_pattern := [PatTok.filename] } envSame []
        "d" [urlX1, urlX2] 1).map fun t => t.2.1) = ["d/x.jpg", "d/x.jpg"] ∧
    resolvePath { cfgNoDedup with rename_pattern := [PatTok.filename] } envSame []
        "d" urlX1 1
      = resolvePath { cfgNoDedup with rename_pattern := [PatTok.filename] } envSame []
        "d" urlX2 2 := by
  decide

/-- C6 amended: the collision check consults only the on-disk path set at
enqueue time; when the resolved path already exists on disk the produced
path is the timestamp-spliced variant, which differs from the existing
path.  No within-batch disjointness is provided. -/
theorem c6_collision_amended (cfg : Config) (env : Env) (disk_paths : List String)
    (save_dir : String) (u : Url) (i : Nat)
    (hmem : pathJoin save_dir (get_filename_from_url cfg env u i) ∈ disk_paths) :
    resolvePath cfg env disk_paths save_dir u i
      = pathJoin save_dir
          ((splitext (get_filename_from_url cfg env u i)).1 ++ "_" ++ toString env.now
            ++ (splitext (get_filename_from_url cfg env u i)).2) ∧
    resolvePath cfg env disk_paths save_dir u i
      ≠ pathJoin save_dir (get_filename_from_url cfg env u i) := by
  have heq : resolvePath cfg env disk_paths save_dir u i
      = pathJoin save_dir
          ((splitext (get_filename_from_url cfg env u i)).1 ++ "_" ++ toString env.now
            ++ (splitext (get_filename_from_url cfg env u i)).2) := by
    simp only [resolvePath]
    rw [if_pos hmem]
  refine ⟨heq, ?_⟩
  rw [heq]
  intro hcontra
  have hlen := congrArg String.length hcontra
  have hsplit : (splitext (get_filename_from_url cfg env u i)).1.length
      + (splitext (get_filename_from_url cfg env u i)).2.length
      = (get_filename_from_url cfg env u i).length := by
    have h := congrArg String.length (splitext_append (get_filename_from_url cfg env u i))
    rwa [String.length_append] at h
  rw [pathJoin_length, pathJoin_length] at hlen
  simp only [String.length_append] at hlen
  have hu : ("_" : String).length = 1 := rfl
  rw [hu] at hlen
  omega

/-- C6 amended witness: `001_a.jpg` already on disk forces the timestamped
variant, which differs from the existing path. -/
theorem c6_collision_amended_witness :
    resolvePath cfgDedup envSame ["save/2023-11-14/001_a.jpg"] "save/2023-11-14" urlA 1
      = "save/2023-11-14/001_a_1700000000.jpg" ∧
    resolvePath cfgDedup envSame ["save/2023-11-14/001_a.jpg"] "save/2023-11-14" urlA 1
      ≠ "save/2023-11-14/001_a.jpg" :=
  c6_collision_amended cfgDedup envSame ["save/2023-11-14/001_a.jpg"] "save/2023-11-14"
    urlA 1 (by decide)

/-- C7: the check-then-insert of the content-digest set is not atomic; in
the interleaving where both workers run the membership test of line 283
before either commit, both record Success, whereas any serialized execution
records one Success and one Duplicate. -/
theorem c7_dedup_race_code_bug :
    (raceRun "h1" [RaceOp.checkA, RaceOp.checkB, RaceOp.commitA, RaceOp.commitB]
      raceInit).success = 2 ∧
    (raceRun "h1" [RaceOp.checkA, RaceOp.commitA, RaceOp.checkB, RaceOp.commitB]
      raceInit).success = 1 ∧
    (raceRun "h1" [RaceOp.checkA, RaceOp.commitA, RaceOp.checkB, RaceOp.commitB]
      raceInit).duplicate = 1 := by
  decide

/-- C8: the URL-digest set and the content-digest set of one downloader
instance only grow across a whole batch, including the reset at the start
of `download_all`, which clears the statistics but neither set. -/
theorem c8_dedup_sets_monotone (cfg : Config) (env : Env) (st : DownloaderState)
    (urls : List Url) :
    st.url_hash_set ⊆ (download_all cfg env st urls).2.url_hash_set ∧
    st.file_hash_set ⊆ (download_all cfg env st urls).2.file_hash_set := by
  have hfil := filter_image_urls_state cfg env urls (resetState st)
  unfold download_all
  dsimp only
  by_cases he : (filter_image_urls cfg env urls (resetState st)).2.isEmpty = true
  · rw [if_pos he]
    refine ⟨hfil.2.2.2.2.2, ?_⟩
    intro a ha
    rw [hfil.2.2.2.1]
    exact ha
  · rw [if_neg he]
    dsimp only
    have hrun := runTasks_sets cfg env
      (assign_paths cfg env
        ((filter_image_urls cfg env urls (resetState st)).1.disk.map Prod.fst)
        (get_save_directory cfg env) (filter_image_urls cfg env urls (resetState st)).2 1)
      { (filter_image_urls cfg env urls (resetState st)).1 with
        stats := { (filter_image_urls cfg env urls (resetState st)).1.stats with
                   total := (filter_image_urls cfg env urls (resetState st)).2.length } }
    constructor
    · intro a ha
      rw [hrun.1]
      exact hfil.2.2.2.2.2 ha
    · intro a ha
      apply hrun.2
      show a ∈ (filter_image_urls cfg env urls (resetState st)).1.file_hash_set
      rw [hfil.2.2.2.1]
      exact ha

/-- C8 witness: concrete digests present before a batch survive it. -/
theorem c8_dedup_sets_monotone_witness :
    ["u0"] ⊆ (download_all cfgDedup envSame
      { initState with url_hash_set := ["u0"], file_hash_set := ["f0"] }
      [urlA]).2.url_hash_set ∧
    ["f0"] ⊆ (download_all cfgDedup envSame
      { initState with url_hash_set := ["u0"], file_hash_set := ["f0"] }
      [urlA]).2.file_hash_set :=
  c8_dedup_sets_monotone cfgDedup envSame
    { initState with url_hash_set := ["u0"], file_hash_set := ["f0"] } [urlA]

/-- C9: the classifier is total; an extension match on the lowered URL path
returns `True` whatever the probe would answer (so no network request is
needed), and when no extension matches, a failed probe yields `False`
rather than a propagated exception. -/
theorem c9_classifier_no_raise (cfg : Config) (url : Url)
    (probeRes : Except Unit String) :
    ((cfg.supported_extensions.any fun ext => strEndsWith (strLower url.path) ext) = true →
      is_image_url cfg url probeRes = true) ∧
    ((cfg.supported_extensions.any fun ext => strEndsWith (strLower url.path) ext) = false →
      is_image_url cfg url (.error ()) = false) := by
  constructor
  · intro h
    simp only [is_image_url]
    rw [if_pos h]
  · intro h
    simp only [is_image_url]
    rw [if_neg (by simp [h])]

/-- C9 witness: `a.jpg` is accepted by extension whatever the probe says;
an extension-less URL with a failing probe is rejected. -/
theorem c9_classifier_witness :
    is_image_url cfgDedup urlA (Except.ok "text/html") = true ∧
    is_image_url cfgDedup urlNoExt (Except.error ()) = false :=
  ⟨(c9_classifier_no_raise cfgDedup urlA (Except.ok "text/html")).1 (by decide),
   (c9_classifier_no_raise cfgDedup urlNoExt (Except.error ())).2 (by decide)⟩

/-- C10: `skipped` is incremented only together with `duplicate`, so after
every batch the two counters are equal; URL-level duplicates are dropped
before enqueue, so `total` counts exactly the post-filter task list. -/
theorem c10_skipped_eq_duplicate (cfg : Config) (env : Env) (st : DownloaderState)
    (urls : List Url) :
    (download_all cfg env st urls).2.stats.duplicate
      = (download_all cfg env st urls).2.stats.skipped ∧
    (download_all cfg env st urls).2.stats.total
      = (filter_image_urls cfg env urls (resetState st)).2.length := by
  have h := download_all_stats_core cfg env st urls
  exact ⟨h.2.2, h.1⟩

end ClipboardDownloader
